import Mathlib

/-
Verification of the code-review check module of the scorecard repository
(src/checks/code_review.go) against its natural-language specification.

The `checker` package (Result model, constructors, proportional scoring
rule, the MultiCheckOr combinator) is referenced by the visible source but
its code is not present; those parts are modelled from the specification
(sections 3, 4.1, 4.2, 4.4) and marked `Modelled from the spec:` in their
doc comments.  Everything else is translated directly from
src/checks/code_review.go.
-/

namespace Scorecard

/-- Go errors are opaque values here; only their identity matters. -/
abbrev GoError := String

/-- Error classification carried inside a Result.
Modelled from the spec: section 3, "one of {none, retryable-transient,
inconclusive-insufficient-evidence}". -/
inductive ErrClass where
  | none
  | retryable
  | inconclusive
deriving DecidableEq, Repr

/-- Result model.
Modelled from the spec: section 3, "Result: {check name, boolean pass
verdict, confidence level (bounded integer, e.g. 0-10), optional error
classification}"; the optional cause mirrors the error value the Go
constructors receive. -/
structure CheckResult where
  name : String
  pass : Bool
  confidence : Nat
  errClass : ErrClass
  cause : Option GoError
deriving DecidableEq, Repr

/-- Modelled from the spec: the bounded confidence range is "e.g. 0-10"
(section 3), so the maximal value denoting certainty is 10. -/
def maxResultConfidence : Nat := 10

/-- Modelled from the spec: section 4.1, `retryResult(name, cause)` builds a
Result tagged retryable-transient and never asserts pass/fail. -/
def MakeRetryResult (name : String) (cause : GoError) : CheckResult :=
  { name := name, pass := false, confidence := 0,
    errClass := ErrClass.retryable, cause := some cause }

/-- Modelled from the spec: section 4.1, `inconclusiveResult(name, cause)`
builds a Result tagged inconclusive (the Go call sites pass a nil-able
error, hence the `Option`). -/
def MakeInconclusiveResult (name : String) (cause : Option GoError) : CheckResult :=
  { name := name, pass := false, confidence := 0,
    errClass := ErrClass.inconclusive, cause := cause }

/-- Modelled from the spec: section 4.2, the proportional scoring rule.
Pass iff `numerator / denominator >= threshold`.  The spec leaves the exact
confidence curve to the implementation provided it is monotonic,
deterministic and bounded, with a zero ratio mapped to the floor; we take
the floor of `10 * numerator / denominator`, capped at the maximum.  The
spec calls `denominator = 0` undefined evidence; consistently with the
insufficient-evidence classification of the Result model we model that case as
an inconclusive Result. -/
def MakeProportionalResult (name : String) (numerator denominator : Nat)
    (threshold : ℚ) : CheckResult :=
  if denominator = 0 then MakeInconclusiveResult name Option.none
  else
    { name := name,
      pass := decide (threshold ≤ (numerator : ℚ) / (denominator : ℚ)),
      confidence := min maxResultConfidence (numerator * maxResultConfidence / denominator),
      errClass := ErrClass.none, cause := Option.none }

/-- A pull request as used by the checks: `pr.GetNumber()`,
`pr.MergedAt` (nil-able), `pr.Labels` (label names via `l.GetName()`),
`pr.GetMergeCommitSHA()`. -/
structure PullRequest where
  number : Nat
  mergedAt : Option Nat
  labels : List String
  mergeCommitSHA : String

/-- A review as used by the checks: `r.GetState()`. -/
structure Review where
  state : String

/-- A commit as used by the checks.  Go getter chains such as
`commit.GetAuthor().GetLogin()` return the empty string when a field is
nil, so the logins are plain strings here. -/
structure RepoCommit where
  authorLogin : String
  committerLogin : String
  message : String

/-- Repository metadata as used by the checks: `r.GetDefaultBranch()`. -/
structure Repository where
  defaultBranch : String

/-- The `RequiredPullRequestReviews` record inside branch protection. -/
structure RequiredReviews where
  requiredApprovingReviewCount : Int

/-- Branch protection as used by the checks:
`bp.GetRequiredPullRequestReviews()` is nil-able. -/
structure BranchProtection where
  requiredPullRequestReviews : Option RequiredReviews

/-- A check request: owner, repo, context and the evidence-provider client
are constant for one invocation, so each fetch operation appears with those
arguments already applied.  Field names follow the Go call chains. -/
structure CheckRequest where
  pullRequestsList : Except GoError (List PullRequest)
  pullRequestsListReviews : Nat → Except GoError (List Review)
  repositoriesGetCommit : String → Except GoError RepoCommit
  repositoriesGet : Except GoError Repository
  repositoriesGetBranchProtection : String → Except GoError BranchProtection
  repositoriesListCommits : Except GoError (List RepoCommit)

/-- A check function, as in the Go `checker.CheckFn`. -/
abbrev CheckFn := CheckRequest → CheckResult

/-- `CheckCodeReview` is the registered name for `DoesCodeReview`. -/
def CheckCodeReview : String := "Code-Review"

/-- `ErrorNoReviews` indicates no reviews were found for this repo. -/
def ErrorNoReviews : GoError := "no reviews found"

/-- The contribution of one merged pull request to `totalReviewed` in
`GithubCodeReview`: if listing the reviews errors the loop continues (the
pull request is not counted as reviewed); otherwise an "APPROVED" review
counts it once, and only failing that the merge commit is fetched and a
nonempty author differing from a nonempty committer counts it once. -/
def githubReviewedIncrement (c : CheckRequest) (pr : PullRequest) : Nat :=
  match c.pullRequestsListReviews pr.number with
  | Except.error _ => 0
  | Except.ok reviews =>
    if reviews.any (fun r => r.state == "APPROVED") then 1
    else
      match c.repositoriesGetCommit pr.mergeCommitSHA with
      | Except.error _ => 0
      | Except.ok commit =>
        if commit.authorLogin != "" && commit.committerLogin != "" &&
            commit.authorLogin != commit.committerLogin then 1 else 0

/-- One iteration of the `GithubCodeReview` loop over pull requests; the
accumulator is `(totalReviewed, totalMerged)`.  Unmerged pull requests are
skipped; a merged one always increments `totalMerged`. -/
def githubStep (c : CheckRequest) (acc : Nat × Nat) (pr : PullRequest) : Nat × Nat :=
  if pr.mergedAt.isNone then acc
  else (acc.1 + githubReviewedIncrement c pr, acc.2 + 1)

/-- The `(totalReviewed, totalMerged)` counters computed by the
`GithubCodeReview` loop. -/
def githubCodeReviewCounts (c : CheckRequest) (prs : List PullRequest) : Nat × Nat :=
  prs.foldl (githubStep c) (0, 0)

/-- `GithubCodeReview` from src/checks/code_review.go: list closed pull
requests (an error yields an inconclusive Result), count merged and
reviewed ones, and always delegate to the proportional scoring rule with
threshold 0.75. -/
def GithubCodeReview (c : CheckRequest) : CheckResult :=
  match c.pullRequestsList with
  | Except.error err => MakeInconclusiveResult CheckCodeReview (some err)
  | Except.ok prs =>
    let counts := githubCodeReviewCounts c prs
    MakeProportionalResult CheckCodeReview counts.1 counts.2 (3/4)

/-- The `(numerator, denominator)` pair `GithubCodeReview` hands to
`MakeProportionalResult` (line 102 of the source), or `none` when the
pull-request listing fails and that call site is never reached.  This marks
the call so that claims about "invoking the scoring rule" are statable. -/
def githubCodeReviewScoringArgs (c : CheckRequest) : Option (Nat × Nat) :=
  match c.pullRequestsList with
  | Except.error _ => Option.none
  | Except.ok prs => some (githubCodeReviewCounts c prs)

/-- `IsPrReviewRequired` from src/checks/code_review.go: a failed
repository-metadata fetch is retryable; a failed branch-protection read is
inconclusive; a required approving review count of at least 1 yields a pass
with the literal confidence 5; otherwise inconclusive with no cause. -/
def IsPrReviewRequired (c : CheckRequest) : CheckResult :=
  match c.repositoriesGet with
  | Except.error err => MakeRetryResult CheckCodeReview err
  | Except.ok r =>
    match c.repositoriesGetBranchProtection r.defaultBranch with
    | Except.error err => MakeInconclusiveResult CheckCodeReview (some err)
    | Except.ok bp =>
      match bp.requiredPullRequestReviews with
      | some rr =>
        if rr.requiredApprovingReviewCount ≥ 1 then
          { name := CheckCodeReview, pass := true, confidence := 5,
            errClass := ErrClass.none, cause := Option.none }
        else MakeInconclusiveResult CheckCodeReview Option.none
      | Option.none => MakeInconclusiveResult CheckCodeReview Option.none

/-- One iteration of the `ProwCodeReview` loop; the accumulator is
`(totalReviewed, totalMerged)`.  A merged pull request is reviewed when it
carries an "lgtm" or "approved" label. -/
def prowStep (acc : Nat × Nat) (pr : PullRequest) : Nat × Nat :=
  if pr.mergedAt.isNone then acc
  else
    (acc.1 + (if pr.labels.any (fun l => l == "lgtm" || l == "approved") then 1 else 0),
     acc.2 + 1)

/-- The `(totalReviewed, totalMerged)` counters computed by the
`ProwCodeReview` loop. -/
def prowCounts (prs : List PullRequest) : Nat × Nat :=
  prs.foldl prowStep (0, 0)

/-- `ProwCodeReview` from src/checks/code_review.go: a failed pull-request
listing yields an inconclusive Result; zero reviewed pull requests yield an
inconclusive Result carrying `ErrorNoReviews`; otherwise the proportional
scoring rule with threshold 0.75. -/
def ProwCodeReview (c : CheckRequest) : CheckResult :=
  match c.pullRequestsList with
  | Except.error err => MakeInconclusiveResult CheckCodeReview (some err)
  | Except.ok prs =>
    let counts := prowCounts prs
    if counts.1 = 0 then MakeInconclusiveResult CheckCodeReview (some ErrorNoReviews)
    else MakeProportionalResult CheckCodeReview counts.1 counts.2 (3/4)

/-- Containment of `pat` in some suffix-aligned position of a character
list: the recursive core of `strContains`. -/
def charsContains (pat : List Char) : List Char → Bool
  | [] => pat.isEmpty
  | c :: rest => pat.isPrefixOf (c :: rest) || charsContains pat rest

/-- Substring containment, as Go `strings.Contains`. -/
def strContains (s pat : String) : Bool :=
  charsContains pat.toList s.toList

/-- The bot test of `CommitMessageHints`: the committer login contains one
of the denylist substrings "bot" or "gardener". -/
def isBotCommitter (login : String) : Bool :=
  ["bot", "gardener"].any (fun sub => strContains login sub)

/-- One iteration of the `CommitMessageHints` loop; the accumulator is
`(totalReviewed, total)`.  Commits from bot committers are skipped; a
counted commit is reviewed when its message has both gerrit trailers. -/
def commitStep (acc : Nat × Nat) (commit : RepoCommit) : Nat × Nat :=
  if isBotCommitter commit.committerLogin then acc
  else
    (acc.1 +
      (if strContains commit.message "\nReviewed-on: " &&
          strContains commit.message "\nReviewed-by: " then 1 else 0),
     acc.2 + 1)

/-- The `(totalReviewed, total)` counters computed by the
`CommitMessageHints` loop. -/
def commitHintCounts (commits : List RepoCommit) : Nat × Nat :=
  commits.foldl commitStep (0, 0)

/-- `CommitMessageHints` from src/checks/code_review.go: a failed commit
listing is retryable; zero reviewed commits yield an inconclusive Result
carrying `ErrorNoReviews`; otherwise the proportional scoring rule with
threshold 0.75. -/
def CommitMessageHints (c : CheckRequest) : CheckResult :=
  match c.repositoriesListCommits with
  | Except.error err => MakeRetryResult CheckCodeReview err
  | Except.ok commits =>
    let counts := commitHintCounts commits
    if counts.1 = 0 then MakeInconclusiveResult CheckCodeReview (some ErrorNoReviews)
    else MakeProportionalResult CheckCodeReview counts.1 counts.2 (3/4)

/-- Runs the child checks in order until the first definitive pass: returns
the results of the children actually run before a pass (all of them when no
child passes) and the passing result when one occurred.  Children after a
pass are not evaluated. -/
def runUntilPass (checks : List CheckFn) (c : CheckRequest) :
    List CheckResult × Option CheckResult :=
  match checks with
  | [] => ([], Option.none)
  | f :: rest =>
    let r := f c
    if r.pass then ([], some r)
    else
      let p := runUntilPass rest c
      (r :: p.1, p.2)

/-- Folds the results of children none of which passed.
Modelled from the spec: section 4.4, rules 2 and 3 — propagate the first
retryable Result when one exists, otherwise the last inconclusive Result
observed; with no inconclusive Result observed (in particular with zero
children) the combinator is inconclusive by definition. -/
def foldNoPass (name : String) (results : List CheckResult) : CheckResult :=
  match results.find? (fun r => r.errClass == ErrClass.retryable) with
  | some r => r
  | Option.none =>
    match (results.filter (fun r => r.errClass == ErrClass.inconclusive)).getLast? with
    | some r => r
    | Option.none => MakeInconclusiveResult name Option.none

/-- Modelled from the spec: section 4.4, `anyOf(checks...)` — run each
child against the same Request in the given order, short-circuit on the
first definitive pass returning that Result verbatim with its name
rewritten to the own name of the combinator, and otherwise fold the child
results by the retryable-then-last-inconclusive rule. -/
def MultiCheckOr (name : String) (checks : List CheckFn) : CheckFn := fun c =>
  match runUntilPass checks c with
  | (_, some r) => { r with name := name }
  | (results, Option.none) => foldNoPass name results

/-- `DoesCodeReview` from src/checks/code_review.go: the combinator over
the four heuristics in declaration order. -/
def DoesCodeReview : CheckFn :=
  MultiCheckOr CheckCodeReview
    [IsPrReviewRequired, GithubCodeReview, ProwCodeReview, CommitMessageHints]

/-- A merged pull request with no labels, merge commit "sha1". -/
def prMerged : PullRequest :=
  { number := 1, mergedAt := some 0, labels := [], mergeCommitSHA := "sha1" }

/-- A closed but unmerged pull request. -/
def unmergedPr : PullRequest :=
  { number := 2, mergedAt := Option.none, labels := ["lgtm"], mergeCommitSHA := "sha2" }

/-- A human commit without review trailers. -/
def plainCommit : RepoCommit :=
  { authorLogin := "alice", committerLogin := "alice", message := "Fix bug" }

/-- A commit authored by a bot account but committed by a human. -/
def botAuthoredCommit : RepoCommit :=
  { authorLogin := "dependabot", committerLogin := "alice", message := "Update deps" }

/-- A commit authored by a human but committed by a bot account. -/
def botCommittedCommit : RepoCommit :=
  { authorLogin := "alice", committerLogin := "ci-bot", message := "Apply patch" }

/-- A request on which every evidence fetch fails with the same error. -/
def allErrRequest : CheckRequest where
  pullRequestsList := Except.error "boom"
  pullRequestsListReviews := fun _ => Except.error "boom"
  repositoriesGetCommit := fun _ => Except.error "boom"
  repositoriesGet := Except.error "boom"
  repositoriesGetBranchProtection := fun _ => Except.error "boom"
  repositoriesListCommits := Except.error "boom"

/-- A request whose pull-request listing succeeds with one merged pull
request but whose per-pull-request review listing always fails. -/
def swallowRequest : CheckRequest where
  pullRequestsList := Except.ok [prMerged]
  pullRequestsListReviews := fun _ => Except.error "rate limited"
  repositoriesGetCommit := fun _ => Except.error "rate limited"
  repositoriesGet := Except.error "rate limited"
  repositoriesGetBranchProtection := fun _ => Except.error "rate limited"
  repositoriesListCommits := Except.error "rate limited"

/-- A request whose pull-request listing succeeds but holds no merged pull
request: the eligible population is empty. -/
def emptyPopulationRequest : CheckRequest where
  pullRequestsList := Except.ok [unmergedPr]
  pullRequestsListReviews := fun _ => Except.ok []
  repositoriesGetCommit := fun _ => Except.error "not found"
  repositoriesGet := Except.ok { defaultBranch := "main" }
  repositoriesGetBranchProtection := fun _ => Except.error "forbidden"
  repositoriesListCommits := Except.ok []

/-- A request whose default branch protection requires one approving
review; the pull-request history errors, so consulting it is observable. -/
def protectedRequest : CheckRequest where
  pullRequestsList := Except.error "history never consulted"
  pullRequestsListReviews := fun _ => Except.error "history never consulted"
  repositoriesGetCommit := fun _ => Except.error "history never consulted"
  repositoriesGet := Except.ok { defaultBranch := "main" }
  repositoriesGetBranchProtection := fun b =>
    if b == "main" then
      Except.ok { requiredPullRequestReviews := some { requiredApprovingReviewCount := 1 } }
    else Except.error "wrong branch"
  repositoriesListCommits := Except.error "history never consulted"

/-- A request with one merged unlabeled pull request and one plain commit:
both sampling populations are non-empty with zero positive observations. -/
def zeroPositiveRequest : CheckRequest where
  pullRequestsList := Except.ok [prMerged]
  pullRequestsListReviews := fun _ => Except.ok []
  repositoriesGetCommit := fun _ => Except.error "not found"
  repositoriesGet := Except.ok { defaultBranch := "main" }
  repositoriesGetBranchProtection := fun _ => Except.error "forbidden"
  repositoriesListCommits := Except.ok [plainCommit]

/-- A request that succeeds trivially everywhere; used where only the
combinator structure matters. -/
def okEmptyRequest : CheckRequest where
  pullRequestsList := Except.ok []
  pullRequestsListReviews := fun _ => Except.ok []
  repositoriesGetCommit := fun _ => Except.error "not found"
  repositoriesGet := Except.ok { defaultBranch := "main" }
  repositoriesGetBranchProtection := fun _ => Except.error "forbidden"
  repositoriesListCommits := Except.ok []

/-- A constant child check that passes with full confidence, named "A". -/
def passCheckA : CheckFn := fun _ =>
  { name := "A", pass := true, confidence := 10,
    errClass := ErrClass.none, cause := Option.none }

/-- A constant child check that passes with full confidence, named "B". -/
def passCheckB : CheckFn := fun _ =>
  { name := "B", pass := true, confidence := 10,
    errClass := ErrClass.none, cause := Option.none }

/-- A constant child check that is inconclusive, named "I1". -/
def inconclusiveCheck1 : CheckFn := fun _ =>
  MakeInconclusiveResult "I1" Option.none

/-- A constant child check that is inconclusive, named "I2". -/
def inconclusiveCheck2 : CheckFn := fun _ =>
  MakeInconclusiveResult "I2" Option.none

/-- A constant child check that is retryable, named "R1". -/
def retryCheck1 : CheckFn := fun _ =>
  MakeRetryResult "R1" "errA"

/-- A constant child check that is retryable, named "R2". -/
def retryCheck2 : CheckFn := fun _ =>
  MakeRetryResult "R2" "errB"

/-- A fold over a pair of counters preserves an invariant preserved by each
step. -/
theorem foldl_pair_invariant {α : Type} (step : Nat × Nat → α → Nat × Nat)
    (P : Nat × Nat → Prop)
    (hstep : ∀ acc a, P acc → P (step acc a)) :
    ∀ (l : List α) (acc : Nat × Nat), P acc → P (l.foldl step acc) := by
  intro l
  induction l with
  | nil => intro acc h; exact h
  | cons a t ih => intro acc h; exact ih (step acc a) (hstep acc a h)

/-- A merged pull request contributes at most once to `totalReviewed` in
`GithubCodeReview`: an approved review counts once and suppresses the
committer-differs-from-author fallback. -/
theorem githubReviewedIncrement_le_one (c : CheckRequest) (pr : PullRequest) :
    githubReviewedIncrement c pr ≤ 1 := by
  unfold githubReviewedIncrement
  split
  · exact Nat.zero_le 1
  · split
    · exact Nat.le_refl 1
    · split
      · exact Nat.zero_le 1
      · split
        · exact Nat.le_refl 1
        · exact Nat.zero_le 1

/-- The `GithubCodeReview` loop step keeps the reviewed counter at most the
merged counter. -/
theorem githubStep_le (c : CheckRequest) (acc : Nat × Nat) (pr : PullRequest)
    (h : acc.1 ≤ acc.2) : (githubStep c acc pr).1 ≤ (githubStep c acc pr).2 := by
  unfold githubStep
  split
  · exact h
  · have := githubReviewedIncrement_le_one c pr
    simp only []
    omega

/-- The `ProwCodeReview` loop step keeps the reviewed counter at most the
merged counter. -/
theorem prowStep_le (acc : Nat × Nat) (pr : PullRequest)
    (h : acc.1 ≤ acc.2) : (prowStep acc pr).1 ≤ (prowStep acc pr).2 := by
  unfold prowStep
  split
  · exact h
  · split <;> simp <;> omega

/-- The `CommitMessageHints` loop step keeps the reviewed counter at most
the total counter. -/
theorem commitStep_le (acc : Nat × Nat) (cm : RepoCommit)
    (h : acc.1 ≤ acc.2) : (commitStep acc cm).1 ≤ (commitStep acc cm).2 := by
  unfold commitStep
  split
  · exact h
  · split <;> simp <;> omega

/-- The `GithubCodeReview` loop ignores pull requests that were never
merged. -/
theorem foldl_githubStep_unmerged (c : CheckRequest) :
    ∀ (prs : List PullRequest), (∀ pr ∈ prs, pr.mergedAt = Option.none) →
    ∀ acc, prs.foldl (githubStep c) acc = acc := by
  intro prs
  induction prs with
  | nil => intro _ acc; rfl
  | cons pr rest ih =>
    intro h acc
    have hpr : pr.mergedAt = Option.none := h pr (List.mem_cons_self pr rest)
    have hres : ∀ q ∈ rest, q.mergedAt = Option.none :=
      fun q hq => h q (List.mem_cons_of_mem pr hq)
    simp only [List.foldl_cons, githubStep, hpr, Option.isNone_none, if_pos]
    exact ih hres acc

/-- The `CommitMessageHints` loop computes the same counters whether or not
bot-committed commits are pre-filtered away: a skipped commit contributes
to neither counter. -/
theorem foldl_commitStep_filter :
    ∀ (commits : List RepoCommit) (acc : Nat × Nat),
      commits.foldl commitStep acc =
      (commits.filter fun cm => !(isBotCommitter cm.committerLogin)).foldl commitStep acc := by
  intro commits
  induction commits with
  | nil => intro acc; rfl
  | cons cm rest ih =>
    intro acc
    by_cases h : isBotCommitter cm.committerLogin
    · have hstep : commitStep acc cm = acc := by
        unfold commitStep; rw [if_pos h]
      simp only [List.foldl_cons, List.filter_cons, h, Bool.not_true, if_neg,
        Bool.false_eq_true, not_false_iff, hstep]
      exact ih acc
    · have hb : isBotCommitter cm.committerLogin = false := by
        exact Bool.eq_false_iff.mpr h
      simp only [List.foldl_cons, List.filter_cons, hb, Bool.not_false, if_pos]
      exact ih (commitStep acc cm)

/-- Running the combinator children until a pass: when every child of a
prefix fails and the next child passes, the prefix results are collected
and the passing result is returned; children after the pass are never
evaluated. -/
theorem runUntilPass_append_pass (c : CheckRequest) (f : CheckFn)
    (rest : List CheckFn) (hpass : (f c).pass = true) :
    ∀ pre : List CheckFn, (∀ g ∈ pre, (g c).pass = false) →
    runUntilPass (pre ++ f :: rest) c = (pre.map fun g => g c, some (f c)) := by
  intro pre
  induction pre with
  | nil => intro _; simp [runUntilPass, hpass]
  | cons g gs ih =>
    intro h
    have hg : (g c).pass = false := h g (List.mem_cons_self g gs)
    have hgs : ∀ q ∈ gs, (q c).pass = false :=
      fun q hq => h q (List.mem_cons_of_mem g hq)
    simp only [List.cons_append, runUntilPass, hg, Bool.false_eq_true, if_neg,
      not_false_iff, List.map_cons, List.append_eq]
    rw [ih hgs]

/-- Running the combinator children until a pass: when no child passes, all
results are collected in order and no pass is reported. -/
theorem runUntilPass_noPass (c : CheckRequest) :
    ∀ checks : List CheckFn, (∀ g ∈ checks, (g c).pass = false) →
    runUntilPass checks c = (checks.map fun g => g c, Option.none) := by
  intro checks
  induction checks with
  | nil => intro _; rfl
  | cons g gs ih =>
    intro h
    have hg : (g c).pass = false := h g (List.mem_cons_self g gs)
    have hgs : ∀ q ∈ gs, (q c).pass = false :=
      fun q hq => h q (List.mem_cons_of_mem g hq)
    simp only [runUntilPass, hg, Bool.false_eq_true, if_neg, not_false_iff,
      ih hgs, List.map_cons]

/-- Claim C1 is false as stated: when the pull-request listing fetch
errors, `GithubCodeReview` and `ProwCodeReview` return an
inconclusive-classified Result, not a retryable one; and when the
per-pull-request review listing errors inside the `GithubCodeReview` loop,
the error is swallowed (the loop continues) and the check still returns a
proportional Result with no error classification at all. -/
theorem c1_counterexample :
    (GithubCodeReview allErrRequest).errClass = ErrClass.inconclusive ∧
    (GithubCodeReview allErrRequest).errClass ≠ ErrClass.retryable ∧
    (ProwCodeReview allErrRequest).errClass = ErrClass.inconclusive ∧
    (ProwCodeReview allErrRequest).errClass ≠ ErrClass.retryable ∧
    (GithubCodeReview swallowRequest).errClass = ErrClass.none := by
  refine ⟨rfl, ?_, rfl, ?_, rfl⟩ <;> decide

/-- Claim C1 (amended): fetch errors are classified per check and never
raise a fault, but the classification differs by call site: the
repository-metadata fetch in `IsPrReviewRequired` and the commit-listing
fetch in `CommitMessageHints` return a retryable Result with the cause
attached, while the pull-request listing fetch in `GithubCodeReview` and
`ProwCodeReview` returns an inconclusive Result with the cause attached. -/
theorem c1_amended (c : CheckRequest) (e : GoError) :
    (c.repositoriesGet = Except.error e →
      (IsPrReviewRequired c).errClass = ErrClass.retryable ∧
      (IsPrReviewRequired c).cause = some e) ∧
    (c.repositoriesListCommits = Except.error e →
      (CommitMessageHints c).errClass = ErrClass.retryable ∧
      (CommitMessageHints c).cause = some e) ∧
    (c.pullRequestsList = Except.error e →
      (GithubCodeReview c).errClass = ErrClass.inconclusive ∧
      (GithubCodeReview c).cause = some e ∧
      (ProwCodeReview c).errClass = ErrClass.inconclusive ∧
      (ProwCodeReview c).cause = some e) := by
  refine ⟨fun h => ?_, fun h => ?_, fun h => ?_⟩
  · simp [IsPrReviewRequired, h, MakeRetryResult]
  · simp [CommitMessageHints, h, MakeRetryResult]
  · simp [GithubCodeReview, ProwCodeReview, h, MakeInconclusiveResult]

/-- Witness for C1 (amended) at the request on which every fetch errors
with "boom". -/
theorem c1_witness :
    (IsPrReviewRequired allErrRequest).errClass = ErrClass.retryable ∧
    (CommitMessageHints allErrRequest).errClass = ErrClass.retryable ∧
    (GithubCodeReview allErrRequest).cause = some "boom" ∧
    (ProwCodeReview allErrRequest).cause = some "boom" := by
  have h := c1_amended allErrRequest "boom"
  exact ⟨(h.1 rfl).1, (h.2.1 rfl).1, (h.2.2 rfl).2.1, (h.2.2 rfl).2.2.2⟩

/-- Claim C2 is false as stated: on a successfully fetched listing whose
eligible population is empty (one closed but unmerged pull request, so
zero merged ones), `GithubCodeReview` does invoke the proportional scoring
rule, handing it numerator 0 and denominator 0. -/
theorem c2_counterexample :
    githubCodeReviewScoringArgs emptyPopulationRequest = some (0, 0) ∧
    (githubCodeReviewCounts emptyPopulationRequest [unmergedPr]).2 = 0 := by
  exact ⟨rfl, rfl⟩

/-- Claim C2 (amended): for every input whose eligible population is empty,
`GithubCodeReview` still invokes the proportional scoring rule, with
numerator 0 and denominator 0; the rule (modelled to classify a zero
denominator as insufficient evidence) then makes the heuristic return an
inconclusive-classified Result. -/
theorem c2_amended (c : CheckRequest) (prs : List PullRequest)
    (hlist : c.pullRequestsList = Except.ok prs)
    (hempty : ∀ pr ∈ prs, pr.mergedAt = Option.none) :
    githubCodeReviewScoringArgs c = some (0, 0) ∧
    (GithubCodeReview c).errClass = ErrClass.inconclusive := by
  have hcounts : githubCodeReviewCounts c prs = (0, 0) :=
    foldl_githubStep_unmerged c prs hempty (0, 0)
  constructor
  · simp only [githubCodeReviewScoringArgs, hlist, hcounts]
  · simp [GithubCodeReview, hlist, hcounts, MakeProportionalResult,
      MakeInconclusiveResult]

/-- Witness for C2 (amended) at the request listing one unmerged pull
request. -/
theorem c2_witness :
    githubCodeReviewScoringArgs emptyPopulationRequest = some (0, 0) ∧
    (GithubCodeReview emptyPopulationRequest).errClass = ErrClass.inconclusive :=
  c2_amended emptyPopulationRequest [unmergedPr] rfl
    (by intro pr hpr; rw [List.mem_singleton] at hpr; subst hpr; rfl)

/-- Claim C3 is false as stated: when the metadata fetch and the
branch-protection read succeed and the default branch requires one
approving review, `IsPrReviewRequired` passes with the literal confidence
5, which is not the maximal value 10 of the bounded 0-10 confidence
range. -/
theorem c3_counterexample :
    (IsPrReviewRequired protectedRequest).pass = true ∧
    (IsPrReviewRequired protectedRequest).confidence = 5 ∧
    (IsPrReviewRequired protectedRequest).confidence ≠ maxResultConfidence := by
  refine ⟨rfl, rfl, ?_⟩
  decide

/-- Claim C3 (amended): when the repository-metadata fetch and the
branch-protection read both succeed and the default branch requires at
least one approving review, `IsPrReviewRequired` returns a passing Result
with the fixed confidence 5 — the midpoint, not the maximum, of the
bounded 0-10 confidence range — and it never samples pull-request history:
its Result depends only on the metadata and branch-protection fetches. -/
theorem c3_amended (c : CheckRequest) (r : Repository) (bp : BranchProtection)
    (rr : RequiredReviews)
    (hr : c.repositoriesGet = Except.ok r)
    (hbp : c.repositoriesGetBranchProtection r.defaultBranch = Except.ok bp)
    (hrr : bp.requiredPullRequestReviews = some rr)
    (hcount : 1 ≤ rr.requiredApprovingReviewCount) :
    IsPrReviewRequired c =
      { name := CheckCodeReview, pass := true, confidence := 5,
        errClass := ErrClass.none, cause := Option.none } ∧
    ∀ c2 : CheckRequest, c2.repositoriesGet = c.repositoriesGet →
      c2.repositoriesGetBranchProtection = c.repositoriesGetBranchProtection →
      IsPrReviewRequired c2 = IsPrReviewRequired c := by
  constructor
  · simp [IsPrReviewRequired, hr, hbp, hrr, hcount]
  · intro c2 h1 h2
    simp only [IsPrReviewRequired, h1, h2]

/-- Witness for C3 (amended) at the request whose default branch "main"
requires one approving review. -/
theorem c3_witness :
    IsPrReviewRequired protectedRequest =
      { name := CheckCodeReview, pass := true, confidence := 5,
        errClass := ErrClass.none, cause := Option.none } :=
  (c3_amended protectedRequest { defaultBranch := "main" }
    { requiredPullRequestReviews := some { requiredApprovingReviewCount := 1 } }
    { requiredApprovingReviewCount := 1 } rfl rfl rfl (by decide)).1

/-- Claim C4 is false as stated: on a request with one merged unlabeled
pull request and one plain commit, the eligible populations of
`ProwCodeReview` and `CommitMessageHints` are non-empty (denominator 1)
with zero positive observations, yet both checks return an
inconclusive-classified Result instead of the proportional (failing)
one. -/
theorem c4_counterexample :
    (prowCounts [prMerged]).2 = 1 ∧
    (ProwCodeReview zeroPositiveRequest).errClass = ErrClass.inconclusive ∧
    (commitHintCounts [plainCommit]).2 = 1 ∧
    (CommitMessageHints zeroPositiveRequest).errClass = ErrClass.inconclusive := by
  refine ⟨rfl, rfl, by decide, by decide⟩

/-- Claim C4 (amended): `GithubCodeReview` always delegates to the
proportional scoring rule with threshold 0.75 once its listing fetch
succeeded, but `ProwCodeReview` and `CommitMessageHints` do so only when
at least one positive observation was counted: with zero positive
observations they return an inconclusive Result carrying `ErrorNoReviews`,
even when the eligible population is non-empty. -/
theorem c4_amended (c : CheckRequest) (prs : List PullRequest)
    (commits : List RepoCommit) :
    (c.pullRequestsList = Except.ok prs →
      GithubCodeReview c = MakeProportionalResult CheckCodeReview
        (githubCodeReviewCounts c prs).1 (githubCodeReviewCounts c prs).2 (3/4)) ∧
    (c.pullRequestsList = Except.ok prs → (prowCounts prs).1 ≠ 0 →
      ProwCodeReview c = MakeProportionalResult CheckCodeReview
        (prowCounts prs).1 (prowCounts prs).2 (3/4)) ∧
    (c.pullRequestsList = Except.ok prs → (prowCounts prs).1 = 0 →
      ProwCodeReview c = MakeInconclusiveResult CheckCodeReview (some ErrorNoReviews)) ∧
    (c.repositoriesListCommits = Except.ok commits → (commitHintCounts commits).1 ≠ 0 →
      CommitMessageHints c = MakeProportionalResult CheckCodeReview
        (commitHintCounts commits).1 (commitHintCounts commits).2 (3/4)) ∧
    (c.repositoriesListCommits = Except.ok commits → (commitHintCounts commits).1 = 0 →
      CommitMessageHints c = MakeInconclusiveResult CheckCodeReview (some ErrorNoReviews)) := by
  refine ⟨fun h => ?_, fun h hnz => ?_, fun h hz => ?_, fun h hnz => ?_, fun h hz => ?_⟩
  · simp only [GithubCodeReview, h]
  · simp only [ProwCodeReview, h]
    rw [if_neg hnz]
  · simp only [ProwCodeReview, h]
    rw [if_pos hz]
  · simp only [CommitMessageHints, h]
    rw [if_neg hnz]
  · simp only [CommitMessageHints, h]
    rw [if_pos hz]

/-- Witness for C4 (amended) at the request with one merged unlabeled pull
request and one plain commit. -/
theorem c4_witness :
    ProwCodeReview zeroPositiveRequest =
      MakeInconclusiveResult CheckCodeReview (some ErrorNoReviews) ∧
    CommitMessageHints zeroPositiveRequest =
      MakeInconclusiveResult CheckCodeReview (some ErrorNoReviews) := by
  have h := c4_amended zeroPositiveRequest [prMerged] [plainCommit]
  exact ⟨h.2.2.1 rfl rfl, h.2.2.2.2 rfl (by decide)⟩

/-- Claim C5: `MultiCheckOr` runs its children against the same request in
declaration order and short-circuits on the first definitive pass — when
every child before `f` fails and `f` passes, the combinator returns the
Result of `f` verbatim with its name rewritten to the own name of the
combinator, and the outcome is the same whatever the children after `f`
are (they need not be evaluated), so the earliest passing child
deterministically wins. -/
theorem c5_first_pass_wins (name : String) (pre : List CheckFn) (f : CheckFn)
    (rest : List CheckFn) (c : CheckRequest)
    (hpre : ∀ g ∈ pre, (g c).pass = false) (hpass : (f c).pass = true) :
    MultiCheckOr name (pre ++ f :: rest) c = { f c with name := name } ∧
    ∀ rest2 : List CheckFn,
      MultiCheckOr name (pre ++ f :: rest2) c = { f c with name := name } := by
  have key : ∀ rest2 : List CheckFn,
      MultiCheckOr name (pre ++ f :: rest2) c = { f c with name := name } := by
    intro rest2
    simp only [MultiCheckOr, runUntilPass_append_pass c f rest2 hpass pre hpre]
  exact ⟨key rest, key⟩

/-- Witness for C5: with an inconclusive first child and two passing
children, the combinator returns the Result of the earlier passing child
renamed to "anyOf". -/
theorem c5_witness :
    MultiCheckOr "anyOf" [inconclusiveCheck1, passCheckA, passCheckB] okEmptyRequest =
      { passCheckA okEmptyRequest with name := "anyOf" } :=
  (c5_first_pass_wins "anyOf" [inconclusiveCheck1] passCheckA [passCheckB]
    okEmptyRequest
    (by intro g hg; rw [List.mem_singleton] at hg; subst hg; rfl) rfl).1

/-- Claim C6: when no child of `MultiCheckOr` passes, the combinator
propagates the first retryable child Result when one exists, otherwise the
last inconclusive Result observed; and with zero children it returns an
inconclusive Result. -/
theorem c6_no_pass_fold (name : String) (checks : List CheckFn)
    (c : CheckRequest) (hnp : ∀ g ∈ checks, (g c).pass = false) :
    (MultiCheckOr name [] c = MakeInconclusiveResult name Option.none) ∧
    (∀ r : CheckResult,
      (checks.map fun g => g c).find?
        (fun r2 => r2.errClass == ErrClass.retryable) = some r →
      MultiCheckOr name checks c = r) ∧
    ((checks.map fun g => g c).find?
        (fun r2 => r2.errClass == ErrClass.retryable) = Option.none →
      ∀ r : CheckResult,
        ((checks.map fun g => g c).filter
          fun r2 => r2.errClass == ErrClass.inconclusive).getLast? = some r →
        MultiCheckOr name checks c = r) := by
  have hrun := runUntilPass_noPass c checks hnp
  refine ⟨rfl, fun r hfind => ?_, fun hnone r hlast => ?_⟩
  · simp only [MultiCheckOr, hrun, foldNoPass, hfind]
  · simp only [MultiCheckOr, hrun, foldNoPass, hnone, hlast]

/-- Witness for C6: with an inconclusive child followed by two retryable
children, the first retryable Result is propagated; with zero children the
combinator is inconclusive. -/
theorem c6_witness :
    MultiCheckOr "anyOf" [inconclusiveCheck2, retryCheck1, retryCheck2]
      okEmptyRequest = MakeRetryResult "R1" "errA" ∧
    MultiCheckOr "anyOf" ([] : List CheckFn) okEmptyRequest =
      MakeInconclusiveResult "anyOf" Option.none := by
  have h := c6_no_pass_fold "anyOf" [inconclusiveCheck2, retryCheck1, retryCheck2]
    okEmptyRequest
    (by
      intro g hg
      simp only [List.mem_cons, List.not_mem_nil, or_false] at hg
      rcases hg with h1 | h1 | h1 <;> subst h1 <;> rfl)
  exact ⟨h.2.1 (MakeRetryResult "R1" "errA") rfl, h.1⟩

/-- Claim C7: for every positive denominator and threshold in (0,1], the
proportional scoring rule passes exactly when the observed fraction is at
least the threshold; its confidence is bounded by the maximum and
non-decreasing in the numerator for a fixed denominator (being a pure
function of its arguments, it is deterministic); and the two spec
scenarios hold: 8 of 10 at threshold 0.75 passes, 3 of 5 fails. -/
theorem c7_proportional (name : String) (numerator denominator : Nat)
    (threshold : ℚ) (hden : 0 < denominator) (hpos : 0 < threshold)
    (hle : threshold ≤ 1) :
    ((MakeProportionalResult name numerator denominator threshold).pass = true ↔
      threshold ≤ (numerator : ℚ) / (denominator : ℚ)) ∧
    (MakeProportionalResult name numerator denominator threshold).confidence ≤
      maxResultConfidence ∧
    (∀ n1 n2 : Nat, n1 ≤ n2 →
      (MakeProportionalResult name n1 denominator threshold).confidence ≤
      (MakeProportionalResult name n2 denominator threshold).confidence) ∧
    (MakeProportionalResult name 8 10 (3/4)).pass = true ∧
    (MakeProportionalResult name 3 5 (3/4)).pass = false := by
  have hne : denominator ≠ 0 := Nat.pos_iff_ne_zero.mp hden
  refine ⟨?_, ?_, ?_, ?_, ?_⟩
  · simp [MakeProportionalResult, hne]
  · simp only [MakeProportionalResult, if_neg hne]
    exact min_le_left _ _
  · intro n1 n2 h12
    simp only [MakeProportionalResult, if_neg hne]
    exact min_le_min (le_refl _)
      (Nat.div_le_div_right (Nat.mul_le_mul_right maxResultConfidence h12))
  · norm_num [MakeProportionalResult]
  · norm_num [MakeProportionalResult]

/-- Witness for C7 at the two spec scenarios with the registered check
name. -/
theorem c7_witness :
    (MakeProportionalResult "Code-Review" 8 10 (3/4)).pass = true ∧
    (MakeProportionalResult "Code-Review" 3 5 (3/4)).pass = false := by
  have h := c7_proportional "Code-Review" 8 10 (3/4) (by norm_num)
    (by norm_num) (by norm_num)
  exact ⟨h.2.2.2.1, h.2.2.2.2⟩

/-- Claim C8: when the repository-metadata fetch succeeds but the
branch-protection read errors, `IsPrReviewRequired` returns an
inconclusive-classified Result carrying the cause, not a retryable
one. -/
theorem c8_protection_error_inconclusive (c : CheckRequest) (r : Repository)
    (e : GoError) (hr : c.repositoriesGet = Except.ok r)
    (hbp : c.repositoriesGetBranchProtection r.defaultBranch = Except.error e) :
    IsPrReviewRequired c = MakeInconclusiveResult CheckCodeReview (some e) ∧
    (IsPrReviewRequired c).errClass ≠ ErrClass.retryable := by
  have h1 : IsPrReviewRequired c = MakeInconclusiveResult CheckCodeReview (some e) := by
    simp only [IsPrReviewRequired, hr, hbp]
  refine ⟨h1, ?_⟩
  rw [h1]
  simp [MakeInconclusiveResult]

/-- Witness for C8 at the request whose branch-protection read is
forbidden. -/
theorem c8_witness :
    IsPrReviewRequired okEmptyRequest =
      MakeInconclusiveResult CheckCodeReview (some "forbidden") :=
  (c8_protection_error_inconclusive okEmptyRequest { defaultBranch := "main" }
    "forbidden" rfl rfl).1

/-- Claim C9 is false as stated: `CommitMessageHints` matches the denylist
against the committer login, not the author — a commit authored by
"dependabot" but committed by "alice" is counted in the denominator, while
a commit authored by "alice" but committed by "ci-bot" is excluded. -/
theorem c9_counterexample :
    strContains botAuthoredCommit.authorLogin "bot" = true ∧
    commitHintCounts [botAuthoredCommit] = (0, 1) ∧
    strContains botCommittedCommit.authorLogin "bot" = false ∧
    commitHintCounts [botCommittedCommit] = (0, 0) := by
  decide

/-- Claim C9 (amended): `CommitMessageHints` excludes every commit whose
committer login (not author) contains a substring of the fixed denylist
"bot", "gardener"; a skipped commit contributes to neither the numerator
nor the denominator — the counters over any commit listing equal the
counters over the listing with bot-committed commits filtered away. -/
theorem c9_amended (commits : List RepoCommit) :
    commitHintCounts commits =
      commitHintCounts
        (commits.filter fun cm => !(isBotCommitter cm.committerLogin)) ∧
    ∀ login : String, isBotCommitter login =
      (strContains login "bot" || strContains login "gardener") := by
  constructor
  · exact foldl_commitStep_filter commits (0, 0)
  · intro login
    simp [isBotCommitter]

/-- Claim C10: in every call the heuristics make to the proportional
scoring rule the numerator is at most the denominator — each merged pull
request or counted commit adds one to the denominator and at most one to
the numerator (in `GithubCodeReview` an approved review suppresses the
committer-differs-from-author fallback), so the observed fraction never
exceeds 1. -/
theorem c10_numerator_le_denominator (c : CheckRequest)
    (prs : List PullRequest) (commits : List RepoCommit) :
    (githubCodeReviewCounts c prs).1 ≤ (githubCodeReviewCounts c prs).2 ∧
    (prowCounts prs).1 ≤ (prowCounts prs).2 ∧
    (commitHintCounts commits).1 ≤ (commitHintCounts commits).2 ∧
    ∀ pr : PullRequest, githubReviewedIncrement c pr ≤ 1 := by
  refine ⟨?_, ?_, ?_, githubReviewedIncrement_le_one c⟩
  · exact foldl_pair_invariant (githubStep c) (fun acc => acc.1 ≤ acc.2)
      (githubStep_le c) prs (0, 0) (Nat.le_refl 0)
  · exact foldl_pair_invariant prowStep (fun acc => acc.1 ≤ acc.2)
      prowStep_le prs (0, 0) (Nat.le_refl 0)
  · exact foldl_pair_invariant commitStep (fun acc => acc.1 ≤ acc.2)
      commitStep_le commits (0, 0) (Nat.le_refl 0)

end Scorecard
